import Mathlib

/-!
Shallow embedding of the tokei line-counting core (udoprog/tokei fork):
the language table, the per-line classifier, language identification,
and the per-language aggregation, together with theorems checking the
natural-language specification against this embedding.

Text is modelled as `List Char` and raw file bytes as `List Nat`.
Definitions are translated from `src/` wherever that code is present;
values that live in files missing from `src/` (the generated language
table data, `utils/bytes.rs`, `language/syntax.rs`, `language.rs`) are
modelled from the specification and say so in their doc comments.
-/

namespace Tokei

/-- Split a character list at every character satisfying `p`, keeping empty
segments, mirroring Rust's `str::split`: `splitOnP p l` never returns `[]`. -/
def splitOnP (p : Char → Bool) : List Char → List (List Char)
  | [] => [[]]
  | x :: xs =>
    if p x then [] :: splitOnP p xs
    else
      match splitOnP p xs with
      | [] => [[x]]
      | y :: ys => (x :: y) :: ys

/-- Split at every occurrence of the character `c` (Rust `str::split(c)`). -/
def splitOnChar (c : Char) (l : List Char) : List (List Char) :=
  splitOnP (fun x => decide (x = c)) l

/-- Rust `str::split_whitespace`: split on whitespace and drop empty tokens. -/
def splitWs (l : List Char) : List (List Char) :=
  (splitOnP Char.isWhitespace l).filter (fun w => !w.isEmpty)

/-- Whether `sub` occurs as a contiguous subsequence of `hay`
(Rust `&[u8]::contains` via windows, i.e. substring search). -/
def listContainsSub (hay sub : List Char) : Bool :=
  match hay with
  | [] => sub.isEmpty
  | _ :: t => sub.isPrefixOf hay || listContainsSub t sub

/-- Rust `str::trim`: remove leading and trailing whitespace. -/
def trimChars (l : List Char) : List Char :=
  ((l.dropWhile Char.isWhitespace).reverse.dropWhile Char.isWhitespace).reverse

/-- Modelled from the spec: `Bytes::lines` (utils/bytes.rs is not under src/).
Physical lines: one line per newline separator, plus one for a trailing
non-terminated line if non-empty (spec section 4.4, "Line iteration"). -/
def specLines (s : List Char) : List (List Char) :=
  let parts := splitOnChar (Char.ofNat 10) s
  if parts.getLastD [] = [] then parts.dropLast else parts

/-- The per-file statistics record (src/stats.rs). -/
structure Stats where
  blanks : Nat
  code : Nat
  comments : Nat
  lines : Nat
  name : String
deriving DecidableEq, Repr

/-- `Stats::new` (src/stats.rs): all counters start at zero. -/
def Stats.new (name : String) : Stats :=
  { blanks := 0, code := 0, comments := 0, lines := 0, name := name }

/-- The language tags the embedding carries: a representative subset of the
generated `LanguageType` enum (src/language/language_type.hbs.rs), enough for
every claim.  The concrete per-language table data is modelled from the spec
(the generated `language_type.rs` is not under src/); base-category values
(`blank`, `c`, `hash`, `haskell`, `func`, `pro`) are translated from the
template itself, which carries them verbatim. -/
inductive LanguageType where
  | Bash
  | C
  | Csh
  | D
  | FortranLegacy
  | FortranModern
  | Haskell
  | Makefile
  | Perl
  | Python
  | Rust
  | Sh
  | Text
deriving DecidableEq, Repr, Ord, BEq

namespace LanguageType

/-- `blank_line_comments` (src template). -/
def blank_line_comments : List String := []

/-- `blank_multi_line_comments` (src template). -/
def blank_multi_line_comments : List (String × String) := []

/-- `blank_quotes` (src template). -/
def blank_quotes : List (String × String) := []

/-- `blank_allows_nested` (src template). -/
def blank_allows_nested : Bool := false

/-- `c_line_comments` (src template). -/
def c_line_comments : List String := ["//"]

/-- `c_multi_line_comments` (src template). -/
def c_multi_line_comments : List (String × String) := [("/*", "*/")]

/-- `c_quotes` (src template). -/
def c_quotes : List (String × String) := [("\"", "\"")]

/-- `hash_line_comments` (src template). -/
def hash_line_comments : List String := ["#"]

/-- `haskell_line_comments` (src template). -/
def haskell_line_comments : List String := ["--"]

/-- `haskell_multi_line_comments` (src template). -/
def haskell_multi_line_comments : List (String × String) := [("\x7b-", "-\x7d")]

/-- `haskell_allows_nested` (src template): `true`. -/
def haskell_allows_nested : Bool := true

/-- Display name (`name()` in the template).  Modelled from the spec: only
`Bash` overrides the variant key (doc example `bash.name() == "BASH"`). -/
def name : LanguageType → String
  | Bash => "BASH"
  | C => "C"
  | Csh => "Csh"
  | D => "D"
  | FortranLegacy => "FortranLegacy"
  | FortranModern => "FortranModern"
  | Haskell => "Haskell"
  | Makefile => "Makefile"
  | Perl => "Perl"
  | Python => "Python"
  | Rust => "Rust"
  | Sh => "Sh"
  | Text => "Text"

/-- `is_blank` — modelled from the spec: the plain-text language carries the
blank flag. -/
def is_blank : LanguageType → Bool
  | Text => true
  | _ => false

/-- `is_fortran` (src template, concrete in the source). -/
def is_fortran (t : LanguageType) : Bool :=
  t = FortranModern || t = FortranLegacy

/-- `line_comments` — per-language values modelled from the spec; base
categories from the src template. -/
def line_comments : LanguageType → List String
  | Bash => hash_line_comments
  | C => c_line_comments
  | Csh => hash_line_comments
  | D => c_line_comments
  | FortranLegacy => ["c", "C", "!", "*"]
  | FortranModern => ["!"]
  | Haskell => haskell_line_comments
  | Makefile => hash_line_comments
  | Perl => hash_line_comments
  | Python => hash_line_comments
  | Rust => ["//"]
  | Sh => hash_line_comments
  | Text => blank_line_comments

/-- `multi_line_comments` — per-language values modelled from the spec; base
categories from the src template. -/
def multi_line_comments : LanguageType → List (String × String)
  | Bash => blank_multi_line_comments
  | C => c_multi_line_comments
  | Csh => blank_multi_line_comments
  | D => c_multi_line_comments
  | FortranLegacy => blank_multi_line_comments
  | FortranModern => blank_multi_line_comments
  | Haskell => haskell_multi_line_comments
  | Makefile => blank_multi_line_comments
  | Perl => blank_multi_line_comments
  | Python => blank_multi_line_comments
  | Rust => [("/*", "*/")]
  | Sh => blank_multi_line_comments
  | Text => blank_multi_line_comments

/-- `nested_comments` — modelled from the spec: only D has any
(doc example in the src template: `[("/+", "+/")]`). -/
def nested_comments : LanguageType → List (String × String)
  | D => [("/+", "+/")]
  | _ => []

/-- `quotes` — per-language values modelled from the spec (the Rust list is
given by the src template's doc example); base categories from the template. -/
def quotes : LanguageType → List (String × String)
  | Bash => c_quotes
  | C => c_quotes
  | Csh => c_quotes
  | D => c_quotes
  | FortranLegacy => c_quotes
  | FortranModern => c_quotes
  | Haskell => blank_quotes
  | Makefile => blank_quotes
  | Perl => c_quotes
  | Python => c_quotes
  | Rust => [("r#\"", "\"#"), ("#\"", "\"#"), ("\"", "\"")]
  | Sh => c_quotes
  | Text => blank_quotes

/-- `allows_nested` — modelled from the spec; Rust's `true` is given by the src
template's doc example, Haskell's by the template's base value. -/
def allows_nested : LanguageType → Bool
  | D => true
  | Haskell => haskell_allows_nested
  | Rust => true
  | _ => blank_allows_nested

/-- `extensions` — modelled from the spec: disjoint case-folded extension sets. -/
def extensions : LanguageType → List (List Char)
  | Bash => ["bash".data]
  | C => ["c".data]
  | Csh => ["csh".data]
  | D => ["d".data]
  | FortranLegacy => ["f77".data]
  | FortranModern => ["f90".data]
  | Haskell => ["hs".data]
  | Makefile => ["makefile".data, "mk".data]
  | Perl => ["pl".data]
  | Python => ["py".data]
  | Rust => ["rs".data]
  | Sh => ["sh".data]
  | Text => ["txt".data]

/-- `filenames` — modelled from the spec: exact case-folded basenames,
e.g. "makefile". -/
def filenames : LanguageType → List (List Char)
  | Makefile => ["makefile".data]
  | _ => []

/-- `env` — modelled from the spec: tokens recognised after `#!/usr/bin/env`. -/
def env : LanguageType → List (List Char)
  | Bash => ["bash".data]
  | Csh => ["csh".data]
  | Perl => ["perl".data]
  | Python => ["python".data, "python2".data, "python3".data]
  | Sh => ["sh".data]
  | _ => []

end LanguageType

/-- `FromStr for LanguageType` (src template): case-sensitive match against the
display name; unknown names give the fixed recoverable error message. -/
def fromStr (s : String) : Except String LanguageType :=
  if s = "BASH" then .ok .Bash
  else if s = "C" then .ok .C
  else if s = "Csh" then .ok .Csh
  else if s = "D" then .ok .D
  else if s = "FortranLegacy" then .ok .FortranLegacy
  else if s = "FortranModern" then .ok .FortranModern
  else if s = "Haskell" then .ok .Haskell
  else if s = "Makefile" then .ok .Makefile
  else if s = "Perl" then .ok .Perl
  else if s = "Python" then .ok .Python
  else if s = "Rust" then .ok .Rust
  else if s = "Sh" then .ok .Sh
  else if s = "Text" then .ok .Text
  else .error "Language not found, please use `-l` to see all available languages."

/-- `Display for LanguageType` (src template): formats as `name()`. -/
def displayLanguageType (t : LanguageType) : String := t.name

/-- The per-file scanner state (src/language/syntax.rs is not under src/;
its fields are given by the spec, section 3 "SyntaxCounter"): the currently
open quote's close marker, the stack of open block comments (innermost
first), and cached views of the language table. -/
structure SyntaxCounter where
  quote : Option (List Char)
  stack : List (List Char)
  line_comments : List (List Char)
  quotes : List (List Char × List Char)
  multi_line : List (List Char × List Char)
  nested_comments : List (List Char × List Char)
  allows_nested : Bool
  is_fortran : Bool
deriving DecidableEq, Repr

/-- `SyntaxCounter::new`: empty scanner state caching the language's table rows. -/
def SyntaxCounter.new (lang : LanguageType) : SyntaxCounter :=
  { quote := none
    stack := []
    line_comments := lang.line_comments.map String.data
    quotes := lang.quotes.map (fun p => (p.1.data, p.2.data))
    multi_line := lang.multi_line_comments.map (fun p => (p.1.data, p.2.data))
    nested_comments := lang.nested_comments.map (fun p => (p.1.data, p.2.data))
    allows_nested := lang.allows_nested
    is_fortran := lang.is_fortran }

/-- Modelled from the spec (section 4.4, step 5a): end of the current quote —
if a quote is open and the window starts with its close marker, close it and
report the marker's length. -/
def SyntaxCounter.parse_end_of_quote (s : SyntaxCounter) (w : List Char) :
    Option (SyntaxCounter × Nat) :=
  match s.quote with
  | some q => if q.isPrefixOf w then some ({ s with quote := none }, q.length) else none
  | none => none

/-- Modelled from the spec (section 4.4, step 5b): end of the innermost open
block comment — if the stack is non-empty and the window starts with its close
marker, pop it and report the marker's length. -/
def SyntaxCounter.parse_end_of_multi_line (s : SyntaxCounter) (w : List Char) :
    Option (SyntaxCounter × Nat) :=
  match s.stack with
  | top :: rest =>
    if top.isPrefixOf w then some ({ s with stack := rest }, top.length) else none
  | [] => none

/-- Modelled from the spec (section 4.4, step 5c): start of a quote — the
window begins a quote-open marker, no quote is currently open, and the stack
is empty; first match against the ordered quote list wins. -/
def SyntaxCounter.parse_quote (s : SyntaxCounter) (w : List Char) :
    Option (SyntaxCounter × Nat) :=
  if s.quote.isSome then none
  else if !s.stack.isEmpty then none
  else
    match s.quotes.find? (fun p => p.1.isPrefixOf w) with
    | some p => some ({ s with quote := some p.2 }, p.1.length)
    | none => none

/-- Modelled from the spec (section 4.4, step 5d): start of a block comment —
the window begins a block-open marker (regular or nested pair) and no quote is
open.  A push onto a non-empty stack is permitted when `allows_nested` holds
or the pair is a `nested_comments` pair; otherwise the second open is ignored
(no push), though the marker is still consumed. -/
def SyntaxCounter.parse_multi_line_comment (s : SyntaxCounter) (w : List Char) :
    Option (SyntaxCounter × Nat) :=
  if s.quote.isSome then none
  else
    match (s.multi_line ++ s.nested_comments).find? (fun p => p.1.isPrefixOf w) with
    | some p =>
      if s.stack.isEmpty || s.allows_nested || s.nested_comments.contains p then
        some ({ s with stack := p.2 :: s.stack }, p.1.length)
      else
        some (s, p.1.length)
    | none => none

/-- Modelled from the spec (section 4.4, step 5, final case): a line-comment
marker is recognised only when no quote and no block comment is open. -/
def SyntaxCounter.parse_line_comment (s : SyntaxCounter) (w : List Char) : Bool :=
  if s.quote.isSome || !s.stack.isEmpty then false
  else s.line_comments.any (fun m => m.isPrefixOf w)

/-- Modelled from the spec (section 4.4, step 4): the "important" substrings —
quote openers, block-comment openers and block-comment closers. -/
def SyntaxCounter.important_markers (s : SyntaxCounter) : List (List Char) :=
  s.quotes.map Prod.fst ++ s.multi_line.map Prod.fst ++ s.multi_line.map Prod.snd
    ++ s.nested_comments.map Prod.fst ++ s.nested_comments.map Prod.snd

/-- Modelled from the spec (section 4.4, step 6): start-of-comment markers —
line-comment markers and block-comment openers. -/
def SyntaxCounter.start_of_comments (s : SyntaxCounter) : List (List Char) :=
  s.line_comments ++ s.multi_line.map Prod.fst ++ s.nested_comments.map Prod.fst

/-- `parse_basic` (src/language/language_type.rs lines 97-122): the fast path.
Fails when a quote is open, the stack is non-empty, or the line contains an
important substring; otherwise classifies by leading line-comment marker. -/
def parse_basic (sc : SyntaxCounter) (line : List Char) (st : Stats) : Option Stats :=
  if sc.quote.isSome || !sc.stack.isEmpty
      || sc.important_markers.any (fun m => listContainsSub line m) then
    none
  else if sc.line_comments.any (fun m => m.isPrefixOf line) then
    some { st with comments := st.comments + 1 }
  else
    some { st with code := st.code + 1 }

/-- The scanning loop of `parse_lines` (src/language/language_type.rs lines
159-191): walk the line left to right; quote/comment ends take precedence over
new openings; a line-comment marker outside any construct ends the scan.  The
returned flag is `ended_with_comments` as left by the last processed position. -/
def scanLine (s : SyntaxCounter) (w : List Char) (ended : Bool) :
    SyntaxCounter × Bool :=
  match w with
  | [] => (s, ended)
  | x :: t =>
    match (s.parse_end_of_quote (x :: t)).orElse
        (fun _ => s.parse_end_of_multi_line (x :: t)) with
    | some r => scanLine r.1 (t.drop (r.2 - 1)) true
    | none =>
      match (s.parse_quote (x :: t)).orElse
          (fun _ => s.parse_multi_line_comment (x :: t)) with
      | some r => scanLine r.1 (t.drop (r.2 - 1)) false
      | none =>
        if s.parse_line_comment (x :: t) then (s, false)
        else scanLine s t false
termination_by w.length
decreasing_by
  all_goals simp [List.length_drop]
  all_goals omega

/-- One iteration of the line loop of `parse_lines` (src lines 133-206):
blank check on the raw line, Fortran-sensitive trimming, the fast path, the
scanning loop, and the final classification of the line. -/
def processLine (sc : SyntaxCounter) (line : List Char) (st : Stats) :
    SyntaxCounter × Stats :=
  if line.all Char.isWhitespace then
    (sc, { st with blanks := st.blanks + 1 })
  else
    let line := if sc.is_fortran then line else trimChars line
    let had_multi_line := !sc.stack.isEmpty
    match parse_basic sc line st with
    | some st' => (sc, st')
    | none =>
      let r := scanLine sc line false
      if ((!r.1.stack.isEmpty || r.2) && had_multi_line)
          || (r.1.start_of_comments.any (fun m => m.isPrefixOf line)
              && r.1.quote.isNone) then
        (r.1, { st with comments := st.comments + 1 })
      else
        (r.1, { st with code := st.code + 1 })

/-- `parse_lines` (src lines 125-210): fold the line loop over the file's
lines and finish with `stats.lines = stats.blanks + stats.code +
stats.comments`. -/
def parse_lines (lang : LanguageType) (lns : List (List Char)) (st : Stats) : Stats :=
  let r := lns.foldl (fun acc line => processLine acc.1 line acc.2)
      (SyntaxCounter.new lang, st)
  { r.2 with lines := r.2.blanks + r.2.code + r.2.comments }

/-- `parse_from_bytes_checked` (src lines 79-91): the blank-language fast path
sets `lines = code = number of physical lines`; otherwise run `parse_lines`. -/
def parse_from_bytes_checked (lang : LanguageType) (name : String)
    (text : List Char) : Stats :=
  let lns := specLines text
  let st := Stats.new name
  if lang.is_blank then
    { st with lines := lns.length, code := lns.length }
  else
    parse_lines lang lns st

/-- `parse_from_str` (src lines 64-66): classify already-decoded text. -/
def parse_from_str (lang : LanguageType) (name : String) (text : List Char) : Stats :=
  parse_from_bytes_checked lang name text

/-- Modelled from the spec: `bytes::is_binary` (utils/bytes.rs is not under
src/) — a NUL byte within the first 8,000 bytes marks the input binary
(spec section 4.2). -/
def is_binary (bs : List Nat) : Bool :=
  (bs.take 8000).any (fun b => b = 0)

/-- Modelled from the spec: `bytes::decode` (utils/bytes.rs is not under
src/) — attempt UTF-8, falling back to a permissive 8-bit reading; it fails
only on unrecoverable input, so the permissive model always succeeds
(spec section 4.2). -/
def decode (bs : List Nat) : Except String (List Char) :=
  .ok (bs.map (fun b => Char.ofNat (b % 256)))

/-- `parse_from_bytes` (src lines 69-76): reject binary input with the
I/O-kind error "binary file", otherwise decode and classify. -/
def parse_from_bytes (lang : LanguageType) (name : String) (bs : List Nat) :
    Except String Stats :=
  if is_binary bs then .error "binary file"
  else
    match decode bs with
    | .ok text => .ok (parse_from_bytes_checked lang name text)
    | .error e => .error e

/-- A file-access handle (src/file_access.rs): the observations identification
uses — display name, optional file name and extension, and the first line
(`none` models an I/O error on `read_first_line`). -/
structure FileAccess where
  name : List Char
  file_name : Option (List Char)
  ext : Option (List Char)
  first_line : Option (List Char)
deriving DecidableEq, Repr

/-- The trait's default `file_name` (src/file_access.rs lines 63-70):
`name().rsplit("/").next().unwrap_or(name)` — the last `/`-separated
component, with no case folding. -/
def defaultFileName (n : List Char) : Option (List Char) :=
  some ((splitOnChar '/' n).reverse.headD n)

/-- The trait's default `extension` (src/file_access.rs lines 73-79):
the last `.`-separated component of `file_name()`, with no case folding;
`none` only when `file_name()` is `none`. -/
def defaultExtension (fname : Option (List Char)) : Option (List Char) :=
  fname.map (fun m => (splitOnChar '.' m).reverse.headD m)

/-- A handle whose `file_name` and `extension` are the trait's defaults. -/
def mkDefaultAccess (n : List Char) (firstLine : Option (List Char)) : FileAccess :=
  { name := n
    file_name := defaultFileName n
    ext := defaultExtension (defaultFileName n)
    first_line := firstLine }

/-- The filename match of `from_file_access` (src template lines 340-352):
exact match of the handle's file name against every language's `filenames`
entries.  The entries are modelled from the spec. -/
def filenameLookup (fn : List Char) : Option LanguageType :=
  if fn = "makefile".data then some .Makefile
  else none

/-- The extension match of `from_file_access` (src template lines 359-376):
exact match against every language's `extensions` entries; an unknown
extension warns and yields `none`.  The entries are modelled from the spec. -/
def extensionLookup (e : List Char) : Option LanguageType :=
  if e = "bash".data then some .Bash
  else if e = "c".data then some .C
  else if e = "csh".data then some .Csh
  else if e = "d".data then some .D
  else if e = "f77".data then some .FortranLegacy
  else if e = "f90".data then some .FortranModern
  else if e = "hs".data then some .Haskell
  else if e = "makefile".data then some .Makefile
  else if e = "mk".data then some .Makefile
  else if e = "pl".data then some .Perl
  else if e = "py".data then some .Python
  else if e = "rs".data then some .Rust
  else if e = "sh".data then some .Sh
  else if e = "txt".data then some .Text
  else none

/-- The `#!/usr/bin/env` token match of `get_filetype_from_shebang`
(src template lines 434-451): a token in some language's `env` set yields
that language's first extension; an unknown token warns and yields `none`.
The env entries are modelled from the spec. -/
def envLookup (w : List Char) : Option (List Char) :=
  if w = "bash".data then some "bash".data
  else if w = "csh".data then some "csh".data
  else if w = "perl".data then some "pl".data
  else if w = "python".data then some "py".data
  else if w = "python2".data then some "py".data
  else if w = "python3".data then some "py".data
  else if w = "sh".data then some "sh".data
  else none

/-- The token dispatch of `get_filetype_from_shebang` (src template lines
428-457) on the whitespace-split first line. -/
def shebangFromWords : List (List Char) → Option (List Char)
  | [] => none
  | w :: rest =>
    if w = "#!/bin/sh".data then some "sh".data
    else if w = "#!/bin/csh".data then some "csh".data
    else if w = "#!/usr/bin/perl".data then some "pl".data
    else if w = "#!/usr/bin/env".data then
      match rest with
      | [] => none
      | w2 :: _ => envLookup w2
    else none

/-- `get_filetype_from_shebang` (src template lines 420-458): read the first
line (an I/O error yields `none`), split it on whitespace and dispatch on the
first token. -/
def get_filetype_from_shebang (f : FileAccess) : Option (List Char) :=
  match f.first_line with
  | some line => shebangFromWords (splitWs line)
  | none => none

/-- `from_file_access` (src template lines 339-377): the filename match wins
and returns immediately; otherwise the extension — or, only when the
extension is `none`, the shebang surrogate extension — is matched against the
extension table. -/
def from_file_access (f : FileAccess) : Option LanguageType :=
  match f.file_name with
  | some fn =>
    match filenameLookup fn with
    | some lang => some lang
    | none =>
      match (f.ext).orElse (fun _ => get_filetype_from_shebang f) with
      | some e => extensionLookup e
      | none => none
  | none =>
    match (f.ext).orElse (fun _ => get_filetype_from_shebang f) with
    | some e => extensionLookup e
    | none => none

/-- Modelled from the spec: the per-language accumulator `Language`
(language.rs is not under src/) — the summed counters plus the list of
contributing file `Stats` (spec section 3). -/
structure Language where
  blanks : Nat
  code : Nat
  comments : Nat
  lines : Nat
  stats : List Stats
deriving DecidableEq, Repr

/-- Modelled from the spec: `Language::new` — an empty accumulator. -/
def Language.new : Language :=
  { blanks := 0, code := 0, comments := 0, lines := 0, stats := [] }

/-- Modelled from the spec: `Language` addition — fieldwise sums, the stats
lists concatenated (spec section 3: "Addition with another `Language`"). -/
def Language.add (a b : Language) : Language :=
  { blanks := a.blanks + b.blanks
    code := a.code + b.code
    comments := a.comments + b.comments
    lines := a.lines + b.lines
    stats := a.stats ++ b.stats }

/-- Modelled from the spec: `Language::add_stat` — append one file's `Stats`
to the accumulator's list; the totals are computed later by `total`. -/
def Language.add_stat (l : Language) (s : Stats) : Language :=
  { l with stats := l.stats ++ [s] }

/-- Modelled from the spec: `Language::total` — after ingestion each
`Language` computes its totals from its accumulated file `Stats`
(spec section 4.5, "Aggregation"). -/
def Language.total (l : Language) : Language :=
  { blanks := (l.stats.map Stats.blanks).sum
    code := (l.stats.map Stats.code).sum
    comments := (l.stats.map Stats.comments).sum
    lines := (l.stats.map Stats.lines).sum
    stats := l.stats }

/-- The `Languages` aggregate (src/language/languages.rs): a finite map from
`LanguageType` to `Language`, here as a function into `Option`. -/
def Languages : Type := LanguageType → Option Language

/-- One step of `AddAssign for Languages` (src/language/languages.rs lines
170-180): a key already present is summed with the incoming value; a key
absent from the receiver is ignored. -/
def Languages.step (m : Languages) (p : LanguageType × Language) : Languages :=
  match m p.1 with
  | some cur => fun k => if k = p.1 then some (Language.add cur p.2) else m k
  | none => m

/-- `AddAssign<BTreeMap<LanguageType, Language>> for Languages`
(src/language/languages.rs lines 170-180): fold the merge step over the
external map's entries. -/
def Languages.addAssign (m : Languages) (rhs : List (LanguageType × Language)) :
    Languages :=
  rhs.foldl Languages.step m

/-- One step of the sequential fold of `get_all_file_accesses`
(src/utils/fs.rs lines 106-109): `entry(lt).or_insert_with(Language::new)`
then `add_stat(stats)`. -/
def ingestStep (m : Languages) (p : LanguageType × Stats) : Languages :=
  fun k =>
    if k = p.1 then some (((m p.1).getD Language.new).add_stat p.2) else m k

/-- The sequential fold of `get_all_file_accesses` (src/utils/fs.rs lines
106-109) over the per-file parse results. -/
def ingest (m : Languages) (results : List (LanguageType × Stats)) : Languages :=
  results.foldl ingestStep m

/-- `get_all_file_accesses` followed by the `total` pass of
`get_statistics_from` (src/utils/fs.rs lines 81-110 and
src/language/languages.rs lines 95-105), starting from an empty map.  The
per-file pipeline (identify, open, classify) is abstracted as `parse`:
it is a pure function of the handle, so the parallel `filter_map` is the
sequential one. -/
def get_statistics_from {F : Type} (parse : F → Option (LanguageType × Stats))
    (files : List F) : Languages :=
  fun k => ((ingest (fun _ => none) (files.filterMap parse)) k).map Language.total

/-- The four per-language totals (blanks, code, comments, lines) of one
`Language` record. -/
def totalsView (l : Language) : Nat × Nat × Nat × Nat :=
  (l.blanks, l.code, l.comments, l.lines)

/-! ## Helper lemmas -/

theorem parse_lines_partition (lang : LanguageType) (lns : List (List Char))
    (st : Stats) :
    (parse_lines lang lns st).lines =
      (parse_lines lang lns st).blanks + (parse_lines lang lns st).code +
        (parse_lines lang lns st).comments := by
  simp [parse_lines]

theorem checked_partition (lang : LanguageType) (name : String) (text : List Char) :
    (parse_from_bytes_checked lang name text).lines =
      (parse_from_bytes_checked lang name text).blanks +
        (parse_from_bytes_checked lang name text).code +
        (parse_from_bytes_checked lang name text).comments := by
  unfold parse_from_bytes_checked
  split
  · simp [Stats.new]
  · exact parse_lines_partition lang _ _

/-! ## C1 -/

/-- C1: for every language and every input text, the `Stats` value produced by
classification (`parse_from_str` / `parse_from_bytes` /
`parse_from_bytes_checked`, both the `is_blank` fast path and the
line-scanning path) satisfies `lines == blanks + code + comments`. -/
theorem stats_lines_partition (lang : LanguageType) (name : String) :
    (∀ text : List Char,
      (parse_from_bytes_checked lang name text).lines =
        (parse_from_bytes_checked lang name text).blanks +
          (parse_from_bytes_checked lang name text).code +
          (parse_from_bytes_checked lang name text).comments) ∧
    (∀ text : List Char,
      (parse_from_str lang name text).lines =
        (parse_from_str lang name text).blanks +
          (parse_from_str lang name text).code +
          (parse_from_str lang name text).comments) ∧
    (∀ (bs : List Nat) (s : Stats), parse_from_bytes lang name bs = .ok s →
      s.lines = s.blanks + s.code + s.comments) := by
  refine ⟨fun text => checked_partition lang name text,
    fun text => checked_partition lang name text, ?_⟩
  intro bs s h
  unfold parse_from_bytes at h
  split at h
  · exact absurd h (by simp)
  · simp only [decode] at h
    obtain rfl : parse_from_bytes_checked lang name _ = s := by
      simpa using h
    exact checked_partition lang name _

/-- Witness for C1 at a concrete Rust input. -/
theorem stats_lines_partition_witness :
    parse_from_bytes LanguageType.Rust "w.rs" [108, 10] =
      Except.ok (parse_from_bytes_checked LanguageType.Rust "w.rs" ['l', '\n']) ∧
    (parse_from_bytes_checked LanguageType.Rust "w.rs" ['l', '\n']).lines =
      (parse_from_bytes_checked LanguageType.Rust "w.rs" ['l', '\n']).blanks +
        (parse_from_bytes_checked LanguageType.Rust "w.rs" ['l', '\n']).code +
        (parse_from_bytes_checked LanguageType.Rust "w.rs" ['l', '\n']).comments :=
  ⟨by rfl, (stats_lines_partition LanguageType.Rust "w.rs").2.2 [108, 10] _ (by rfl)⟩

/-! ## C2 -/

/-- C2 counterexample: a blank-flagged language on a file of five non-empty
lines and two empty lines does not yield `code=5, blanks=2`: the code counts
every physical line (empty ones included) as code and leaves `blanks = 0`. -/
theorem blank_language_counts_counterexample :
    ¬ ((parse_from_bytes_checked LanguageType.Text "t.txt"
          "1\n2\n3\n4\n5\n\n\n".data).code = 5 ∧
       (parse_from_bytes_checked LanguageType.Text "t.txt"
          "1\n2\n3\n4\n5\n\n\n".data).blanks = 2) := by
  decide

/-- C2 (amended): for every language with `is_blank == true`, classification
counts every physical line — empty or not — as code, and reports no blanks
and no comments: `lines = code = number of physical lines`,
`blanks = comments = 0`; in particular five non-empty plus two empty lines
yield `lines=7, code=7, blanks=0, comments=0`. -/
theorem blank_language_counts (lang : LanguageType) (h : lang.is_blank = true)
    (name : String) (text : List Char) :
    parse_from_bytes_checked lang name text =
      { blanks := 0, code := (specLines text).length, comments := 0,
        lines := (specLines text).length, name := name } := by
  simp [parse_from_bytes_checked, h, Stats.new]

/-- Witness for C2 (amended) at the spec's five-plus-two-line input. -/
theorem blank_language_counts_witness :
    LanguageType.Text.is_blank = true ∧
    parse_from_bytes_checked LanguageType.Text "t.txt" "1\n2\n3\n4\n5\n\n\n".data =
      { blanks := 0, code := 7, comments := 0, lines := 7, name := "t.txt" } :=
  ⟨rfl, (blank_language_counts LanguageType.Text rfl "t.txt"
    "1\n2\n3\n4\n5\n\n\n".data).trans (by decide)⟩

/-! ## C4 -/

/-- C4: for every byte sequence classified as binary by the sniffer,
`parse_from_bytes` returns the error "binary file" and produces no `Stats`;
for non-binary input it returns `Ok` with the classified `Stats` (or the
decode error). -/
theorem binary_rejection (lang : LanguageType) (name : String) (bs : List Nat) :
    (is_binary bs = true → parse_from_bytes lang name bs = .error "binary file") ∧
    (∀ text, is_binary bs = false → decode bs = .ok text →
      parse_from_bytes lang name bs = .ok (parse_from_bytes_checked lang name text)) ∧
    (∀ e, is_binary bs = false → decode bs = .error e →
      parse_from_bytes lang name bs = .error e) := by
  refine ⟨fun h => by simp [parse_from_bytes, h], ?_, ?_⟩
  · intro text h hd
    simp [parse_from_bytes, h, decode] at hd ⊢
    simp [← hd, decode]
  · intro e h hd
    simp [decode] at hd

/-- Witness for C4 at a concrete binary input. -/
theorem binary_rejection_witness :
    is_binary [104, 0] = true ∧
    parse_from_bytes LanguageType.Rust "b" [104, 0] = Except.error "binary file" :=
  ⟨by decide, (binary_rejection LanguageType.Rust "b" [104, 0]).1 (by decide)⟩

/-! ## C3 -/

/-- C3 counterexample: a file named `Makefile.rs` does not identify as Make —
its file name matches no `filenames` entry (entries are whole basenames such
as "makefile"), so the `rs` extension wins and it identifies as Rust. -/
theorem filename_override_counterexample :
    from_file_access (mkDefaultAccess "Makefile.rs".data none) ≠
      some LanguageType.Makefile := by
  decide

/-- C3 (amended): if `file_name()` exactly matches an entry in some language's
`filenames` set then identification returns that language regardless of the
handle's extension; but `Makefile.rs` matches no `filenames` entry, so it
identifies by its `rs` extension as Rust, not as Make. -/
theorem filename_override :
    (∀ (f : FileAccess) (fn : List Char) (lang : LanguageType),
      f.file_name = some fn → filenameLookup fn = some lang →
      from_file_access f = some lang) ∧
    from_file_access (mkDefaultAccess "Makefile.rs".data none) =
      some LanguageType.Rust := by
  refine ⟨?_, by decide⟩
  intro f fn lang hfn hlook
  simp [from_file_access, hfn, hlook]

/-- Witness for C3 (amended): a handle whose file name is exactly "makefile"
identifies as Make through the filename table. -/
theorem filename_override_witness :
    (mkDefaultAccess "src/makefile".data none).file_name = some "makefile".data ∧
    filenameLookup "makefile".data = some LanguageType.Makefile ∧
    from_file_access (mkDefaultAccess "src/makefile".data none) =
      some LanguageType.Makefile :=
  ⟨by decide, by decide,
    filename_override.1 (mkDefaultAccess "src/makefile".data none) "makefile".data
      LanguageType.Makefile (by decide) (by decide)⟩

/-! ## C5 -/

/-- C5: shebang inference returns `sh`, `csh` or `pl` for the three hard-coded
interpreter paths, the matched language's first extension for a known
`#!/usr/bin/env` token, and `none` in every other case (unknown first token,
unknown or missing env token, empty line, read failure). -/
theorem shebang_inference :
    (∀ (f : FileAccess) (l : List Char) (r : List (List Char)),
      f.first_line = some l → splitWs l = "#!/bin/sh".data :: r →
      get_filetype_from_shebang f = some "sh".data) ∧
    (∀ (f : FileAccess) (l : List Char) (r : List (List Char)),
      f.first_line = some l → splitWs l = "#!/bin/csh".data :: r →
      get_filetype_from_shebang f = some "csh".data) ∧
    (∀ (f : FileAccess) (l : List Char) (r : List (List Char)),
      f.first_line = some l → splitWs l = "#!/usr/bin/perl".data :: r →
      get_filetype_from_shebang f = some "pl".data) ∧
    (∀ (f : FileAccess) (l : List Char) (r : List (List Char)) (w2 : List Char)
        (lang : LanguageType),
      f.first_line = some l → splitWs l = "#!/usr/bin/env".data :: w2 :: r →
      w2 ∈ lang.env →
      get_filetype_from_shebang f = some (lang.extensions.headD [])) ∧
    (∀ (f : FileAccess) (l : List Char) (r : List (List Char)) (w2 : List Char),
      f.first_line = some l → splitWs l = "#!/usr/bin/env".data :: w2 :: r →
      envLookup w2 = none → get_filetype_from_shebang f = none) ∧
    (∀ (f : FileAccess) (l : List Char),
      f.first_line = some l → splitWs l = ["#!/usr/bin/env".data] →
      get_filetype_from_shebang f = none) ∧
    (∀ (f : FileAccess) (l : List Char) (w : List Char) (r : List (List Char)),
      f.first_line = some l → splitWs l = w :: r →
      w ∉ ["#!/bin/sh".data, "#!/bin/csh".data, "#!/usr/bin/perl".data,
        "#!/usr/bin/env".data] →
      get_filetype_from_shebang f = none) ∧
    (∀ (f : FileAccess) (l : List Char),
      f.first_line = some l → splitWs l = [] →
      get_filetype_from_shebang f = none) ∧
    (∀ f : FileAccess, f.first_line = none → get_filetype_from_shebang f = none) := by
  refine ⟨?_, ?_, ?_, ?_, ?_, ?_, ?_, ?_, ?_⟩
  · intro f l r h1 h2
    simp [get_filetype_from_shebang, h1, h2]
    rfl
  · intro f l r h1 h2
    simp [get_filetype_from_shebang, h1, h2]
    rfl
  · intro f l r h1 h2
    simp [get_filetype_from_shebang, h1, h2]
    rfl
  · intro f l r w2 lang h1 h2 hmem
    simp only [get_filetype_from_shebang, h1, h2]
    have henv : shebangFromWords ("#!/usr/bin/env".data :: w2 :: r) = envLookup w2 := rfl
    rw [henv]
    cases lang <;> simp [LanguageType.env] at hmem <;>
      rcases hmem with rfl | rfl | rfl <;> rfl
  · intro f l r w2 h1 h2 hlook
    simp only [get_filetype_from_shebang, h1, h2]
    have henv : shebangFromWords ("#!/usr/bin/env".data :: w2 :: r) = envLookup w2 := rfl
    rw [henv, hlook]
  · intro f l h1 h2
    simp [get_filetype_from_shebang, h1, h2]
    rfl
  · intro f l w r h1 h2 hne
    simp only [List.mem_cons, List.mem_singleton, not_or] at hne
    obtain ⟨n1, n2, n3, n4⟩ := hne
    simp only [get_filetype_from_shebang, h1, h2]
    simp [shebangFromWords, n1, n2, n3, n4]
  · intro f l h1 h2
    simp [get_filetype_from_shebang, h1, h2, shebangFromWords]
  · intro f h
    simp [get_filetype_from_shebang, h]

/-- Witness for C5 at a concrete `#!/bin/sh` first line. -/
theorem shebang_inference_witness :
    (mkDefaultAccess "x".data (some "#!/bin/sh -e".data)).first_line =
      some "#!/bin/sh -e".data ∧
    splitWs "#!/bin/sh -e".data = ["#!/bin/sh".data, "-e".data] ∧
    get_filetype_from_shebang (mkDefaultAccess "x".data (some "#!/bin/sh -e".data)) =
      some "sh".data :=
  ⟨by decide, by decide,
    shebang_inference.1 (mkDefaultAccess "x".data (some "#!/bin/sh -e".data))
      "#!/bin/sh -e".data ["-e".data] (by decide) (by decide)⟩

/-! ## C6 -/

theorem addAssign_apply (rhs : List (LanguageType × Language)) :
    ∀ (m : Languages) (k : LanguageType),
      Languages.addAssign m rhs k =
        match m k with
        | none => none
        | some v =>
          some (((rhs.filter (fun p => decide (p.1 = k))).map Prod.snd).foldl
            Language.add v) := by
  induction rhs with
  | nil =>
    intro m k
    cases h : m k <;> simp [Languages.addAssign, h]
  | cons p t ih =>
    intro m k
    have hstep : Languages.addAssign m (p :: t) k =
        Languages.addAssign (Languages.step m p) t k := rfl
    rw [hstep, ih]
    by_cases hk : k = p.1
    · subst hk
      cases hm : m p.1 with
      | none => simp [Languages.step, hm]
      | some cur => simp [Languages.step, hm, List.filter_cons]
    · have hne : p.1 ≠ k := fun hh => hk hh.symm
      have hstepk : Languages.step m p k = m k := by
        unfold Languages.step
        cases hm : m p.1
        · rfl
        · simp [hk]
      rw [hstepk]
      cases h : m k <;> simp [List.filter_cons, hne]

/-- C6: after `L += M` the key set of `L` is unchanged — keys already present
have their `Language` values summed with `M`'s entries for that key, keys
absent from `L` stay absent, and no entry of `M` creates a new key. -/
theorem add_assign_merge (L : Languages) (rhs : List (LanguageType × Language))
    (k : LanguageType) :
    ((L.addAssign rhs) k).isSome = (L k).isSome ∧
    (L k = none → (L.addAssign rhs) k = none) ∧
    (∀ v, L k = some v →
      (L.addAssign rhs) k =
        some (((rhs.filter (fun p => decide (p.1 = k))).map Prod.snd).foldl
          Language.add v)) := by
  refine ⟨?_, ?_, ?_⟩
  · rw [addAssign_apply]
    cases h : L k <;> simp
  · intro h
    rw [addAssign_apply, h]
  · intro v h
    rw [addAssign_apply, h]

/-- Witness for C6: a one-key map merged with a two-entry external map —
the present key is summed, the absent key stays absent. -/
theorem add_assign_merge_witness :
    (fun k => if k = LanguageType.Rust then some Language.new else none :
      Languages) LanguageType.Rust = some Language.new ∧
    Languages.addAssign
        (fun k => if k = LanguageType.Rust then some Language.new else none)
        [(LanguageType.Rust, Language.new), (LanguageType.Python, Language.new)]
        LanguageType.Rust =
      some ((([(LanguageType.Rust, Language.new),
          (LanguageType.Python, Language.new)].filter
            (fun p => decide (p.1 = LanguageType.Rust))).map Prod.snd).foldl
        Language.add Language.new) :=
  ⟨rfl,
    (add_assign_merge
      (fun k => if k = LanguageType.Rust then some Language.new else none)
      [(LanguageType.Rust, Language.new), (LanguageType.Python, Language.new)]
      LanguageType.Rust).2.2 Language.new rfl⟩

/-! ## C7 -/

/-- C7 counterexample: the trait's default accessors do not lowercase — for
the name `Dir/File.RS` the default `file_name()` is `File.RS`, not `file.rs`,
and the default `extension()` is `RS`, not `rs`. -/
theorem default_accessors_counterexample :
    defaultFileName "Dir/File.RS".data ≠ some "file.rs".data ∧
    defaultExtension (defaultFileName "Dir/File.RS".data) ≠ some "rs".data := by
  constructor <;> decide

/-- C7 (amended): for handles using the default implementations, `file_name()`
is the last `/`-separated component of `name()` and `extension()` is the last
`.`-separated component of that file name — with the original casing kept
(no lowercasing; only the `&Path` implementation, which does not use the
defaults, folds case). -/
theorem default_accessors (n : List Char) :
    defaultFileName n = some ((splitOnChar '/' n).getLastD n) ∧
    defaultExtension (defaultFileName n) =
      some ((splitOnChar '.' ((splitOnChar '/' n).getLastD n)).getLastD
        ((splitOnChar '/' n).getLastD n)) := by
  constructor
  · simp [defaultFileName, List.headD_eq_head?, List.head?_reverse,
      List.getLastD_eq_getLast?]
  · simp [defaultExtension, defaultFileName, List.headD_eq_head?,
      List.head?_reverse, List.getLastD_eq_getLast?]

/-! ## C8 -/

/-- C8: parsing the display name round-trips — `from_str(t.name()) == Ok(t)` —
and `Display` formatting of `t` equals `t.name()`. -/
theorem name_roundtrip :
    ∀ t : LanguageType, fromStr t.name = Except.ok t ∧ displayLanguageType t = t.name := by
  intro t
  cases t <;> exact ⟨rfl, rfl⟩

/-! ## C9 -/

theorem ingest_apply (results : List (LanguageType × Stats)) :
    ∀ (m : Languages) (k : LanguageType),
      ingest m results k =
        if results.filter (fun p => decide (p.1 = k)) = [] then m k
        else
          some (((results.filter (fun p => decide (p.1 = k))).map Prod.snd).foldl
            Language.add_stat ((m k).getD Language.new)) := by
  induction results with
  | nil => intro m k; simp [ingest]
  | cons p t ih =>
    intro m k
    have hstep : ingest m (p :: t) k = ingest (ingestStep m p) t k := rfl
    rw [hstep, ih]
    by_cases hk : k = p.1
    · subst hk
      have h1 : ingestStep m p p.1 = some (((m p.1).getD Language.new).add_stat p.2) := by
        simp [ingestStep]
      by_cases hft : List.filter (fun q => decide (q.1 = p.1)) t = [] <;>
        simp [hft, h1, List.filter_cons]
    · have hne : p.1 ≠ k := fun hh => hk hh.symm
      have h1 : ingestStep m p k = m k := by simp [ingestStep, hk]
      have hfc : List.filter (fun q => decide (q.1 = k)) (p :: t) =
          List.filter (fun q => decide (q.1 = k)) t := by
        simp [List.filter_cons, hne]
      rw [hfc, h1]

theorem foldl_add_stat (es : List Stats) :
    ∀ l : Language, es.foldl Language.add_stat l = { l with stats := l.stats ++ es } := by
  induction es with
  | nil => intro l; simp
  | cons e t ih =>
    intro l
    rw [List.foldl_cons, ih]
    simp [Language.add_stat]

/-- C9: ingestion from a collection of handles is order-insensitive — for any
permutation of the input collection, the per-language totals (blanks, code,
comments, lines for each `LanguageType`) are unchanged. -/
theorem ingestion_perm_invariant {F : Type} (parse : F → Option (LanguageType × Stats))
    (files files' : List F) (h : files.Perm files') (k : LanguageType) :
    (get_statistics_from parse files k).map totalsView =
      (get_statistics_from parse files' k).map totalsView := by
  unfold get_statistics_from
  rw [ingest_apply, ingest_apply]
  have hperm : ((files.filterMap parse).filter (fun p => decide (p.1 = k))).Perm
      ((files'.filterMap parse).filter (fun p => decide (p.1 = k))) :=
    (h.filterMap parse).filter _
  by_cases he : (files.filterMap parse).filter (fun p => decide (p.1 = k)) = []
  · have he' : (files'.filterMap parse).filter (fun p => decide (p.1 = k)) = [] := by
      have := hperm
      rw [he] at this
      exact this.symm.eq_nil
    simp [he, he']
  · have he' : (files'.filterMap parse).filter (fun p => decide (p.1 = k)) ≠ [] := by
      intro hh
      rw [hh] at hperm
      exact he hperm.eq_nil
    have hsnd : (((files.filterMap parse).filter (fun p => decide (p.1 = k))).map
        Prod.snd).Perm
        (((files'.filterMap parse).filter (fun p => decide (p.1 = k))).map Prod.snd) :=
      hperm.map _
    have hsum : ∀ g : Stats → Nat,
        (((files.filterMap parse).filter (fun p => decide (p.1 = k))).map
          (g ∘ Prod.snd)).sum =
        (((files'.filterMap parse).filter (fun p => decide (p.1 = k))).map
          (g ∘ Prod.snd)).sum :=
      fun g => (hperm.map (g ∘ Prod.snd)).sum_eq
    simp only [he, he', if_neg, ite_false, Option.map_some, foldl_add_stat]
    simp [Language.total, totalsView, Language.new]
    exact ⟨hsum Stats.blanks, hsum Stats.code, hsum Stats.comments, hsum Stats.lines⟩

/-- Witness for C9 at a concrete two-element swap. -/
theorem ingestion_perm_invariant_witness :
    ([(LanguageType.Rust, Stats.new "a"), (LanguageType.Python, Stats.new "b")].Perm
      [(LanguageType.Python, Stats.new "b"), (LanguageType.Rust, Stats.new "a")]) ∧
    (get_statistics_from Option.some
        [(LanguageType.Rust, Stats.new "a"), (LanguageType.Python, Stats.new "b")]
        LanguageType.Rust).map totalsView =
      (get_statistics_from Option.some
        [(LanguageType.Python, Stats.new "b"), (LanguageType.Rust, Stats.new "a")]
        LanguageType.Rust).map totalsView :=
  ⟨List.Perm.swap _ _ _,
    ingestion_perm_invariant Option.some _ _ (List.Perm.swap _ _ _) LanguageType.Rust⟩

/-! ## C10 -/

theorem splitOnP_eq_single (p : Char → Bool) (l : List Char)
    (h : ∀ x ∈ l, p x = false) : splitOnP p l = [l] := by
  induction l with
  | nil => rfl
  | cons x xs ih =>
    have hx : p x = false := h x (by simp)
    have hxs : splitOnP p xs = [xs] := ih (fun y hy => h y (by simp [hy]))
    simp [splitOnP, hx, hxs]

/-- C10: for a handle using the default accessors whose file name contains no
`.`, the default `extension()` returns the entire file name (never `none`),
so the shebang fallback of `from_file_access` — taken only when the extension
is `none` — is never reached: identification does not depend on the file's
first line. -/
theorem dotless_extension_no_shebang (n fn : List Char)
    (h : defaultFileName n = some fn) (hdot : '.' ∉ fn) :
    defaultExtension (defaultFileName n) = some fn ∧
    ∀ fl fl', from_file_access (mkDefaultAccess n fl) =
      from_file_access (mkDefaultAccess n fl') := by
  have hsplit : splitOnChar '.' fn = [fn] :=
    splitOnP_eq_single _ fn (fun x hx => by
      simp only [decide_eq_false_iff_not]
      intro hh
      exact hdot (hh ▸ hx))
  have hext0 : defaultExtension (some fn) = some fn := by
    simp [defaultExtension, hsplit]
  have hext : defaultExtension (defaultFileName n) = some fn := by
    rw [h]
    exact hext0
  refine ⟨hext, ?_⟩
  intro fl fl'
  simp only [from_file_access, mkDefaultAccess, h, hext0]
  cases filenameLookup fn <;> simp [Option.orElse]

/-- Witness for C10 at the dotless name `script`. -/
theorem dotless_extension_no_shebang_witness :
    defaultFileName "script".data = some "script".data ∧
    '.' ∉ "script".data ∧
    defaultExtension (defaultFileName "script".data) = some "script".data ∧
    from_file_access (mkDefaultAccess "script".data
        (some "#!/usr/bin/env python3".data)) =
      from_file_access (mkDefaultAccess "script".data none) :=
  ⟨by decide, by decide,
    (dotless_extension_no_shebang "script".data "script".data (by decide)
      (by decide)).1,
    (dotless_extension_no_shebang "script".data "script".data (by decide)
      (by decide)).2 (some "#!/usr/bin/env python3".data) none⟩

end Tokei
